import Mathlib

/-!
Verification development for the bmlab Brillouin-evaluation pipeline
(`bmlab/controllers.py`).  The Python code is shallowly embedded: numpy
doubles become the four-constructor type `PyFloat` (exact rationals plus
the two infinities and NaN), numpy arrays become Lean lists or index
functions paired with explicit shape data, and the fallible grid-key
helpers return `Except`.  External library calls (`scipy.signal.find_peaks`,
the Lorentzian fitter, the worker pool) are treated as oracles passed in
as arguments, exactly at the interface the controllers use them.
-/

set_option linter.unusedVariables false
set_option maxRecDepth 4000

namespace Bmlab

/-!
Exact rational arithmetic.  The library operations `+`, `-`, `*`, `/` on
`ℚ` are irreducible for this toolchain's evaluator, so the embedding uses
the following wrappers, which compute through `Rat.divInt` and are proved
pointwise equal to the library operations (`qAdd_eq` and friends below);
every concrete witness then evaluates by plain `decide`. -/

/-- Exact rational addition. -/
def qAdd (a b : ℚ) : ℚ :=
  Rat.divInt (a.num * b.den + b.num * a.den) ((a.den : ℤ) * b.den)

/-- Exact rational subtraction. -/
def qSub (a b : ℚ) : ℚ :=
  Rat.divInt (a.num * b.den - b.num * a.den) ((a.den : ℤ) * b.den)

/-- Exact rational multiplication. -/
def qMul (a b : ℚ) : ℚ :=
  Rat.divInt (a.num * b.num) ((a.den : ℤ) * b.den)

/-- Exact rational division (0 for a zero divisor, as in Lean). -/
def qDiv (a b : ℚ) : ℚ :=
  Rat.divInt (a.num * b.den) ((a.den : ℤ) * b.num)

/-- A Python/numpy double as the controllers use it: a finite value
(modelled exactly by a rational), a signed infinity, or NaN. -/
inductive PyFloat where
  | val (q : ℚ)
  | inf
  | ninf
  | nan
deriving DecidableEq, Repr, Inhabited

namespace PyFloat

/-- Strict `<` on doubles; every comparison involving NaN is `False`. -/
def lt : PyFloat → PyFloat → Bool
  | nan, _ => false
  | _, nan => false
  | ninf, ninf => false
  | ninf, _ => true
  | _, ninf => false
  | inf, _ => false
  | val _, inf => true
  | val a, val b => decide (a < b)

/-- Non-strict `<=` on doubles; every comparison involving NaN is `False`. -/
def le : PyFloat → PyFloat → Bool
  | nan, _ => false
  | _, nan => false
  | ninf, _ => true
  | _, ninf => false
  | _, inf => true
  | inf, _ => false
  | val a, val b => decide (a ≤ b)

/-- NaN test, `np.isnan`. -/
def isNaN : PyFloat → Bool
  | nan => true
  | _ => false

/-- Finiteness test, `np.isfinite`: excludes NaN and both infinities. -/
def isfinite : PyFloat → Bool
  | val _ => true
  | _ => false

/-- IEEE negation. -/
def neg : PyFloat → PyFloat
  | val q => val (-q)
  | inf => ninf
  | ninf => inf
  | nan => nan

/-- IEEE addition: NaN propagates, `inf + (-inf)` is NaN. -/
def add : PyFloat → PyFloat → PyFloat
  | nan, _ => nan
  | _, nan => nan
  | inf, ninf => nan
  | ninf, inf => nan
  | inf, _ => inf
  | _, inf => inf
  | ninf, _ => ninf
  | _, ninf => ninf
  | val a, val b => val (qAdd a b)

/-- IEEE subtraction. -/
def sub (a b : PyFloat) : PyFloat := add a (neg b)

/-- IEEE absolute value. -/
def pyAbs : PyFloat → PyFloat
  | val q => val |q|
  | inf => inf
  | ninf => inf
  | nan => nan

/-- Left-to-right summation, as numpy reduces a 1-D array. -/
def sum : List PyFloat → PyFloat
  | [] => val 0
  | x :: xs => add x (sum xs)

/-- `np.nanmean`: the mean of the non-NaN entries; NaN when there are none
(numpy emits the suppressed warning for the empty slice). -/
def nanmean (l : List PyFloat) : PyFloat :=
  let vs := l.filter (fun x => !x.isNaN)
  match vs with
  | [] => nan
  | _ :: _ =>
    match sum vs with
    | val s => val (qDiv s (vs.length : ℚ))
    | x => x

/-- `np.nanmin` over a 1-D slice: the smallest non-NaN entry, NaN when all
entries are NaN (numpy emits the suppressed all-NaN-slice warning). -/
def nanmin : List PyFloat → PyFloat
  | [] => nan
  | x :: xs =>
    let m := nanmin xs
    if x.isNaN then m
    else if m.isNaN then x
    else if lt x m then x else m

/-- Python `list.sort()` on a two-element list: swap exactly when the second
element compares `<` to the first (NaN never compares, so never swaps). -/
def pySort2 (p : PyFloat × PyFloat) : PyFloat × PyFloat :=
  if lt p.2 p.1 then (p.2, p.1) else p

end PyFloat

/-!
Grid-key arithmetic, `EvaluationController.get_key_from_indices` and
`EvaluationController.get_indices_from_key` (`controllers.py:970-995`).
Indices are Python ints, so they live in `ℤ`; Python floor division
(`math.floor(a / b)`) is `Int.fdiv` and Python `%` is `Int.fmod`.
-/

/-- `EvaluationController.get_key_from_indices`: linearizes `(x, y, z)` into
`str(z*(rx*ry) + y*rx + x)`, rejecting an index that is `>=` its axis bound
(`IndexError`) or a resolution that is not 3 elements (`ValueError`). -/
def get_key_from_indices (resolution : List ℤ) (ind_x ind_y ind_z : ℤ) :
    Except String String :=
  if resolution.length ≠ 3 then .error "resolution has wrong dimension"
  else
    let r0 := resolution.getD 0 0
    let r1 := resolution.getD 1 0
    let r2 := resolution.getD 2 0
    if ind_x ≥ r0 then .error "x index out of range"
    else if ind_y ≥ r1 then .error "y index out of range"
    else if ind_z ≥ r2 then .error "z index out of range"
    else .ok (toString (ind_z * (r0 * r1) + ind_y * r0 + ind_x))

/-- `EvaluationController.get_indices_from_key`: recovers `(x, y, z)` from the
integer value of a key (the function first applies `int(key)`; we take that
integer directly), raising `ValueError` when a recovered index is `>=` its
axis bound. -/
def get_indices_from_key (resolution : List ℤ) (key : ℤ) :
    Except String (ℤ × ℤ × ℤ) :=
  let r0 := resolution.getD 0 0
  let r1 := resolution.getD 1 0
  let r2 := resolution.getD 2 0
  let ind_z := Int.fdiv key (r0 * r1)
  let ind_y := Int.fdiv (key - ind_z * (r0 * r1)) r0
  let ind_x := Int.fmod (Int.fmod key (r0 * r1)) r0
  if ind_x ≥ r0 ∨ ind_y ≥ r1 ∨ ind_z ≥ r2 then .error "Invalid key"
  else .ok (ind_x, ind_y, ind_z)

/-!
Bounds translator, `EvaluationController.create_bounds` and
`EvaluationController.create_bounds_fwhm` (`controllers.py:712-860`).
A user-facing bound token is one of the strings `"min"`, `"max"`,
`"Inf"`, `"-Inf"`, the decimal rendering of a number (GHz), or anything
else; the token strings are modelled by the constructors below.
Brillouin regions reach the translator as `(start, end)` frequency pairs,
Rayleigh references as a `2 x frames` array of fitted positions
(NaN where the fit failed).
-/

/-- One bound-setting token as `create_bounds` inspects it via
`limit.lower()` and `float(limit)`. -/
inductive BoundToken where
  | minTok
  | maxTok
  | infTok
  | ninfTok
  | num (q : ℚ)
  | junk
deriving DecidableEq, Repr

/-- Python `float(limit)` as used to fill `parsed_bound`: numeric strings
parse to their value, `"Inf"` and `"-Inf"` parse to the infinities, and the
symbolic tokens raise `ValueError`, caught and recorded as NaN. -/
def parsedFloat : BoundToken → PyFloat
  | .minTok => .nan
  | .maxTok => .nan
  | .junk => .nan
  | .infTok => .inf
  | .ninfTok => .ninf
  | .num q => .val q

/-- The `is_anti_stokes_peak` test of `create_bounds`: the nanmean of the
finite parsed bound values compares `< 0` (False when the mean is NaN
because no finite value exists). -/
def isAntiStokesPeak (bound : BoundToken × BoundToken) : Bool :=
  PyFloat.lt
    (PyFloat.nanmean
      (([parsedFloat bound.1, parsedFloat bound.2]).filter
        (fun x => x.isfinite)))
    (.val 0)

/-- The `is_anti_stokes` classification for one bound of one region:
`is_anti_stokes_region` when the region lies entirely on one side of
`anti_stokes_limit` (the nanmean of the two Rayleigh references), else
`is_anti_stokes_peak` inferred from the sign of the bound values. -/
def boundPolarity (region : ℚ × ℚ) (r0 r1 : PyFloat)
    (bound : BoundToken × BoundToken) : Bool :=
  let antiStokesLimit := PyFloat.nanmean [r0, r1]
  let tmp0 := PyFloat.le antiStokesLimit (.val region.1)
  let tmp1 := PyFloat.le antiStokesLimit (.val region.2)
  let isPureRegion := tmp1 == tmp0
  let isAntiStokesRegion :=
    PyFloat.lt antiStokesLimit (.val (qDiv (qAdd region.1 region.2) 2))
  if isPureRegion then isAntiStokesRegion else isAntiStokesPeak bound

/-- Translation of a single limit token (`controllers.py:780-802`):
`"min"`/`"max"` pick a region edge by polarity, `"Inf"`/`"-Inf"` give a
signed infinity whose sign flips with polarity, a numeric GHz value `q`
gives `(-1)^anti * 1e9 * abs(q) + rayleigh_reference`, and an unparseable
token falls through the `except` to `np.Inf`. -/
def translateLimit (region : ℚ × ℚ) (rAnti : PyFloat) (anti : Bool) :
    BoundToken → PyFloat
  | .minTok => .val (if anti then region.2 else region.1)
  | .maxTok => .val (if anti then region.1 else region.2)
  | .ninfTok => if anti then .inf else .ninf
  | .infTok => if anti then .ninf else .inf
  | .num q =>
      PyFloat.add (.val (qMul (if anti then -1 else 1) (qMul (10 ^ 9) |q|))) rAnti
  | .junk => .inf

/-- The `local_limit` of one bound pair for one region and one frame:
classify the polarity, translate both tokens against the matching Rayleigh
reference, and sort the pair ascending with Python `sort()`. -/
def translateBound (region : ℚ × ℚ) (r0 r1 : PyFloat)
    (bound : BoundToken × BoundToken) : PyFloat × PyFloat :=
  let anti := boundPolarity region r0 r1 bound
  let rAnti := if anti then r1 else r0
  PyFloat.pySort2
    (translateLimit region rAnti anti bound.1,
     translateLimit region rAnti anti bound.2)

/-- The `local_bound` list for one region and one frame. -/
def createBoundsFrame (bounds : List (BoundToken × BoundToken))
    (region : ℚ × ℚ) (r0 r1 : PyFloat) : List (PyFloat × PyFloat) :=
  bounds.map (translateBound region r0 r1)

/-- `EvaluationController.create_bounds`: `None` when no `bounds_w0` setting
exists or when `rayleigh_peaks` does not have exactly two rows (one per
Rayleigh region); otherwise, per Brillouin region, per frame, the translated
bound pairs. -/
def create_bounds (boundsSetting : Option (List (BoundToken × BoundToken)))
    (brillouinRegions : List (ℚ × ℚ)) (rayleighPeaks : List (List PyFloat)) :
    Option (List (List (List (PyFloat × PyFloat)))) :=
  match boundsSetting with
  | none => none
  | some bounds =>
    match rayleighPeaks with
    | [row0, row1] =>
      some (brillouinRegions.map (fun region =>
        (List.range row0.length).map (fun idx =>
          createBoundsFrame bounds region
            (row0.getD idx .nan) (row1.getD idx .nan))))
    | _ => none

/-- One FWHM limit token (`controllers.py:843-856`): `"min"`/`"-Inf"` give 0,
`"max"`/`"Inf"` give `np.Inf`, a numeric GHz value gives `1e9 * abs(q)`, and
an unparseable token gives `np.Inf`. -/
def fwhmLimit : BoundToken → PyFloat
  | .minTok => .val 0
  | .ninfTok => .val 0
  | .maxTok => .inf
  | .infTok => .inf
  | .num q => .val (qMul (10 ^ 9) |q|)
  | .junk => .inf

/-- `EvaluationController.create_bounds_fwhm`: `None` only when no
`bounds_fwhm` setting exists; otherwise, per Brillouin region, per frame
(`range(rayleigh_peaks.shape[1])`), the translated FWHM pairs.  Note that,
unlike `create_bounds`, it does not require two Rayleigh rows. -/
def create_bounds_fwhm
    (fwhmSetting : Option (List (BoundToken × BoundToken)))
    (brillouinRegions : List (ℚ × ℚ)) (rayleighPeaks : List (List PyFloat)) :
    Option (List (List (List (PyFloat × PyFloat)))) :=
  match fwhmSetting with
  | none => none
  | some bounds =>
    some (brillouinRegions.map (fun _ =>
      (List.range (rayleighPeaks.headD []).length).map (fun _ =>
        bounds.map (fun b => (fwhmLimit b.1, fwhmLimit b.2)))))

/-- How the multi-peak refit of `evaluate` packs its task arguments
(`controllers.py:607-630`). -/
inductive PackedMultiPeak (W F : Type) where
  | defaults
  | w0only (w : W)
  | bothBounds (w : W) (f : F)
deriving DecidableEq, Repr

/-- The `if`/`elif`/`else` chain of `evaluate` that selects the task packing
from the two translated bounds objects.  The missing case - a `None` center
bound together with a non-`None` FWHM bound - reaches `zip(..., bounds_w0,
bounds_fwhm)`, and `zip` over `None` raises `TypeError`. -/
def packMultiPeak {W F : Type} (bw : Option W) (bf : Option F) :
    Except String (PackedMultiPeak W F) :=
  match bw, bf with
  | none, none => .ok .defaults
  | some w, none => .ok (.w0only w)
  | some w, some f => .ok (.bothBounds w f)
  | none, some _ =>
      .error "TypeError: zip argument of type NoneType is not iterable"

/-- The bounds-translation step of the multi-peak branch of `evaluate`
(`controllers.py:593-633`): translate both bounds settings, then pack the
refit task arguments. -/
def multiPeakBoundsStep
    (boundsW0 boundsFwhm : Option (List (BoundToken × BoundToken)))
    (brillouinRegions : List (ℚ × ℚ)) (rayleighPeaks : List (List PyFloat)) :
    Except String
      (PackedMultiPeak (List (List (List (PyFloat × PyFloat))))
        (List (List (List (PyFloat × PyFloat))))) :=
  packMultiPeak
    (create_bounds boundsW0 brillouinRegions rayleighPeaks)
    (create_bounds_fwhm boundsFwhm brillouinRegions rayleighPeaks)

/-!
Region and peak detector, `CalibrationController.find_peaks`
(`controllers.py:195-294`).  The two `scipy.signal.find_peaks` calls are an
external oracle, modelled as a function from the optional `height` argument
to the detected peak indices and fitted widths (the `prominence` and
`width` arguments are fixed across both calls and live inside the oracle).
-/

/-- Output of one `scipy.signal.find_peaks` call: the ascending peak pixel
indices and the fitted widths from `properties['widths']`. -/
structure ScipyPeaks where
  peaks : List ℤ
  widths : List ℚ
deriving DecidableEq, Repr

/-- Python/numpy 1-D indexing: a negative index wraps from the end, an index
out of range raises `IndexError` (here `none`). -/
def pyGet {α : Type} (l : List α) (i : ℤ) : Option α :=
  if 0 ≤ i then l.get? i.toNat
  else if (-i).toNat ≤ l.length then l.get? (l.length - (-i).toNat)
  else none

/-- Insertion of one element into an ascending list. -/
def insertSorted (x : ℚ) : List ℚ → List ℚ
  | [] => [x]
  | y :: ys => if x ≤ y then x :: y :: ys else y :: insertSorted x ys

/-- Ascending insertion sort (numpy only needs the sorted order of the
values, so any correct sort models it). -/
def sortQ : List ℚ → List ℚ
  | [] => []
  | x :: xs => insertSorted x (sortQ xs)

/-- `np.nanmedian` on a spectrum (spectra are modelled NaN-free): the middle
of the sorted values, averaging the two middles for even length. -/
def nanmedian (l : List ℚ) : ℚ :=
  let s := sortQ l
  if l.length % 2 = 1 then s.getD (l.length / 2) 0
  else qDiv (qAdd (s.getD (l.length / 2 - 1) 0) (s.getD (l.length / 2) 0)) 2

/-- numpy `astype(int)` on a double: truncation toward zero. -/
def truncQ (q : ℚ) : ℤ := if q < 0 then ⌈q⌉ else ⌊q⌋

/-- `peak_to_region` (`controllers.py:264-270`): the interval
`peak + width * (-4, 4)` cast to int, with entries greater than
`len(spectrum)` set to `len(spectrum)`.  Note there is no clamping from
below: a left edge can be negative. -/
def peakToRegion (specLen : ℕ) (p : ℤ) (w : ℚ) : ℤ × ℤ :=
  let lo := truncQ (qAdd (p : ℚ) (qMul w (-4)))
  let hi := truncQ (qAdd (p : ℚ) (qMul w 4))
  (if (specLen : ℤ) < lo then (specLen : ℤ) else lo,
   if (specLen : ℤ) < hi then (specLen : ℤ) else hi)

/-- The intensity-weighted centroid of the background-subtracted spectrum
(`controllers.py:230-236`): values below `base` are zeroed, then
`sum(spectrum * range(1, len+1)) / sum(spectrum)`.  numpy would give NaN for
an all-zero numerator and denominator; `ℚ` division returns 0 there, a
corner no claim exercises. -/
def centerOfMass (base : ℚ) (spectrum : List ℚ) : ℚ :=
  let s := spectrum.map (fun v => if v < base then 0 else v)
  let weighted :=
    (s.zip ((List.range s.length).map (fun i => qAdd (i : ℚ) 1))).map
      (fun p => qMul p.1 p.2)
  qDiv (weighted.foldr qAdd 0) (s.foldr qAdd 0)

/-- `peak_to_region` applied at a (possibly negative) numpy index `i`:
look up `peaks[i]` and `properties['widths'][i]`, then convert; `none`
models the `IndexError` of an out-of-range access. -/
def peakToRegionAt (sp : ScipyPeaks) (len : ℕ) (i : ℤ) : Option (ℤ × ℤ) := do
  let p ← pyGet sp.peaks i
  let w ← pyGet sp.widths i
  pure (peakToRegion len p w)

/-- What one `CalibrationController.find_peaks` run does to the calibration
model: write nothing (give up), write the detected region lists, or abort
with a Python `IndexError` from an out-of-range peak access. -/
inductive RegionsOutcome where
  | noWrite
  | wrote (brillouin rayleigh : List (ℤ × ℤ))
  | indexErr
deriving DecidableEq, Repr

/-- The center / partition / region-building part of
`CalibrationController.find_peaks` (`controllers.py:221-294`), reached once
enough peaks were detected: locate the Stokes/anti-Stokes center, partition
the peaks, convert each selected peak to a region, merge the Brillouin
regions when `num_brillouin_samples > 1`, and emit the Brillouin and
Rayleigh region lists in order.  The two-element Python slice means use
`getD`; the caller guarantees `peaks.length ≥ 2 + 2*s ≥ s + 2`, so they are
in range. -/
def buildRegions (spectrum : List ℚ) (base : ℚ) (sp : ScipyPeaks) (s : ℕ) :
    RegionsOutcome :=
  let peaks := sp.peaks
  let numPeaks := 2 + 2 * s
  let n := peaks.length
  let center :=
    if n = numPeaks then
      qDiv (qAdd (peaks.getD s 0 : ℚ) (peaks.getD (s + 1) 0 : ℚ)) 2
    else
      let com := centerOfMass base spectrum
      let numRight :=
        (peaks.filter (fun p : ℤ => decide (com < (p : ℚ)))).length
      let numLeft :=
        (peaks.filter (fun p : ℤ => decide ((p : ℚ) ≤ com))).length
      if numRight < s + 1 then
        qDiv (qAdd (peaks.getD (n - s - 2) 0 : ℚ) (peaks.getD (n - s - 1) 0 : ℚ)) 2
      else if numLeft < s + 1 then
        qDiv (qAdd (peaks.getD s 0 : ℚ) (peaks.getD (s + 1) 0 : ℚ)) 2
      else com
  let numPeaksLeft :=
    (peaks.filter (fun p : ℤ => decide ((p : ℚ) ≤ center))).length
  let indicesB := (List.range (2 * s)).map
    (fun j : ℕ => (numPeaksLeft : ℤ) - (s : ℤ) + (j : ℤ))
  let indicesR := [(numPeaksLeft : ℤ) - (s : ℤ) - 1, (numPeaksLeft : ℤ) + s]
  match indicesB.mapM (peakToRegionAt sp spectrum.length),
    indicesR.mapM (peakToRegionAt sp spectrum.length) with
  | some rbs, some rrs =>
    let regionsBrillouin :=
      if 1 < s then
        [((rbs.getD 0 (0, 0)).1, (rbs.getD (s - 1) (0, 0)).2),
         ((rbs.getD s (0, 0)).1, (rbs.getD (2 * s - 1) (0, 0)).2)]
      else rbs
    .wrote regionsBrillouin rrs
  | _, _ => .indexErr

/-- The peak-candidate selection of `CalibrationController.find_peaks`
(`controllers.py:202-219`): first call scipy with
`height = min_height + median(spectrum)`; when fewer than `2 + 2*s` peaks
come back, retry once without the height argument. -/
def selectAttempt (spectrum : List ℚ) (scipy : Option ℚ → ScipyPeaks)
    (s : ℕ) (minHeight : ℚ) : ScipyPeaks :=
  let base := nanmedian spectrum
  let first := scipy (some (qAdd minHeight base))
  if first.peaks.length < 2 + 2 * s then scipy none else first

namespace CalibrationController

/-- `CalibrationController.find_peaks`: select peak candidates (with one
retry), give up writing nothing when still fewer than `2 + 2*s` remain,
otherwise build and store the region lists. -/
def find_peaks (spectrum : List ℚ) (scipy : Option ℚ → ScipyPeaks)
    (s : ℕ) (minHeight : ℚ) : RegionsOutcome :=
  let sel := selectAttempt spectrum scipy s minHeight
  if sel.peaks.length < 2 + 2 * s then .noWrite
  else buildRegions spectrum (nanmedian spectrum) sel s

end CalibrationController

/-!
Result tensor and the derived-value pass, `calculate_derived_values`
(`controllers.py:998-1036`).

Modelled from the spec: the result-array allocation
(`initialize_results_arrays` of the evaluation model the controllers call,
with the `_f` frequency arrays, the `rayleigh_shift` array, and the
Brillouin peak axis) is not under `src/` - the `models/evaluation_model.py`
present there is an older revision without these fields.  Following the
spec's six-axis result tensor ("spatial (x, y, z), frame index, region
index, peak-within-region index"; single-peak fit at peak index 0) and the
controllers' own indexing (`rayleigh_peak_initial` has trailing axis length
1), Brillouin arrays have shape
`(dimX, dimY, dimZ, nrImages, nrBrillouinRegions, nrPeakSlots)` and
Rayleigh arrays `(dimX, dimY, dimZ, nrImages, nrRayleighRegions, 1)`.
Arrays are index functions plus the explicit shape.
-/

/-- An index into a six-axis result array. -/
structure Idx6 where
  x : ℕ
  y : ℕ
  z : ℕ
  frame : ℕ
  region : ℕ
  peak : ℕ
deriving DecidableEq, Repr

/-- The `evm.results` arrays that `evaluate` and
`calculate_derived_values` read or write. -/
structure ResultsArrays where
  dimX : ℕ
  dimY : ℕ
  dimZ : ℕ
  nrImages : ℕ
  nrBrillouinRegions : ℕ
  nrPeakSlots : ℕ
  nrRayleighRegions : ℕ
  brillouin_peak_position_f : Idx6 → PyFloat
  brillouin_peak_fwhm_f : Idx6 → PyFloat
  brillouin_peak_intensity : Idx6 → PyFloat
  brillouin_peak_offset : Idx6 → PyFloat
  rayleigh_peak_position_f : Idx6 → PyFloat
  rayleigh_peak_fwhm_f : Idx6 → PyFloat
  rayleigh_peak_intensity : Idx6 → PyFloat
  rayleigh_peak_offset : Idx6 → PyFloat
  rayleigh_shift : Idx6 → PyFloat
  brillouin_shift_f : Idx6 → PyFloat
  timeArr : ℕ × ℕ × ℕ × ℕ → PyFloat
  intensityArr : ℕ × ℕ × ℕ × ℕ → PyFloat

/-- `results['brillouin_peak_position_f'].size`. -/
def sizeB (evm : ResultsArrays) : ℕ :=
  evm.dimX * evm.dimY * evm.dimZ * evm.nrImages * evm.nrBrillouinRegions *
    evm.nrPeakSlots

/-- `results['rayleigh_peak_position_f'].size` (trailing peak axis 1). -/
def sizeR (evm : ResultsArrays) : ℕ :=
  evm.dimX * evm.dimY * evm.dimZ * evm.nrImages * evm.nrRayleighRegions * 1

/-- One entry of the stacked distance array `brillouin_shift_f[..., idx]`
(`controllers.py:1022-1029`): the Brillouin position minus the tiled
Rayleigh position of region `ridx` (peak axis of the Rayleigh array has
length 1, so the tile repeats entry 0), in absolute value. -/
def brillouinShiftCandidate (evm : ResultsArrays) (i : Idx6) (ridx : ℕ) :
    PyFloat :=
  PyFloat.pyAbs
    (PyFloat.sub (evm.brillouin_peak_position_f i)
      (evm.rayleigh_peak_position_f ⟨i.x, i.y, i.z, i.frame, ridx, 0⟩))

/-- The new `brillouin_shift_f` array: per cell, the `np.nanmin` over the
trailing stack axis (`range(shape_rayleigh[4])`, the Rayleigh regions) of
the absolute position differences. -/
def derivedShiftArray (evm : ResultsArrays) : Idx6 → PyFloat :=
  fun i =>
    PyFloat.nanmin
      ((List.range evm.nrRayleighRegions).map (brillouinShiftCandidate evm i))

/-- `calculate_derived_values`: nothing happens without an evaluation model
or when either peak-position array is empty; otherwise
`results['brillouin_shift_f']` becomes the `np.nanmin` over all Rayleigh
regions of the stacked absolute position differences, and nothing else
changes. -/
def calculate_derived_values (evm? : Option ResultsArrays) :
    Option ResultsArrays :=
  match evm? with
  | none => none
  | some evm =>
    if sizeB evm = 0 then some evm
    else if sizeR evm = 0 then some evm
    else some { evm with brillouin_shift_f := derivedShiftArray evm }

/-!
Control-flow skeleton of `EvaluationController.evaluate`
(`controllers.py:454-678`), as a trace of the resource- and
progress-relevant events.  Spectrum extraction, the calibration lookup and
the abort flag are oracles in the environment; the per-point tensor writes
and fits are summarized as one `fitPoint` event.
-/

/-- The oracles `evaluate` consults: which models exist, how many grid
points there are, whether probing point `'0'` yields spectra, and the
per-iteration answers of the abort flag, the extraction and the
frequency-axis lookup. -/
structure EvaluateEnv where
  extractionPresent : Bool
  calibrationPresent : Bool
  peakSelectionPresent : Bool
  evaluationPresent : Bool
  nrImageKeys : ℕ
  firstSpectraPresent : Bool
  abortAt : ℕ → Bool
  extractOk : ℕ → Bool
  frequenciesOk : ℕ → Bool

/-- Observable events of one `evaluate` run. -/
inductive EvalEvent where
  | poolCreate
  | poolClose
  | poolJoin
  | derivedPass
  | fitPoint (idx : ℕ)
  | maxCountSet (v : ℤ)
  | countInc
deriving DecidableEq, Repr

/-- The grid-point loop of `evaluate` (`controllers.py:525-676`), from
iteration `idx` with `rem` keys left: bump the progress counter, poll the
abort flag (on abort: derived pass, progress `-1`, return - note no pool
teardown events), skip the point when extraction or the frequency lookup
fails (`continue`, which also skips the every-tenth derived pass), and
after the last key close and join the pool and run the derived pass. -/
def evaluateLoop (env : EvaluateEnv) : ℕ → ℕ → List EvalEvent
  | _, 0 => [.poolClose, .poolJoin, .derivedPass]
  | idx, rem + 1 =>
    .countInc ::
    (if env.abortAt idx then [.derivedPass, .maxCountSet (-1)]
     else
       (if env.extractOk idx then
          (if env.frequenciesOk idx then
            .fitPoint idx ::
              (if idx % 10 = 0 then [.derivedPass] else [])
           else [])
        else [])
       ++ evaluateLoop env (idx + 1) rem)

namespace EvaluationController

/-- `EvaluationController.evaluate` as its event trace: the four model
checks (each missing model reports `-1` and returns), the total-progress
report, the first-point probe, pool creation, and the grid loop. -/
def evaluate (env : EvaluateEnv) : List EvalEvent :=
  if !env.extractionPresent then [.maxCountSet (-1)]
  else if !env.calibrationPresent then [.maxCountSet (-1)]
  else if !env.peakSelectionPresent then [.maxCountSet (-1)]
  else if !env.evaluationPresent then [.maxCountSet (-1)]
  else
    .maxCountSet (env.nrImageKeys : ℤ) ::
    (if !env.firstSpectraPresent then [.maxCountSet (-1)]
     else .poolCreate :: evaluateLoop env 0 env.nrImageKeys)

end EvaluationController

/-!
Definitions written from the words of the spec, for refinement comparison
with the definitions above, plus concrete inputs used by the theorems.
-/

/-- The numeric-token translation as the claim words it:
`polarity * value * 1e9 + reference_position`, with the signed parsed value
`q` itself (the code instead uses `abs(float(limit))`). -/
def claimedNumericLimit (anti : Bool) (q : ℚ) (rAnti : PyFloat) : PyFloat :=
  PyFloat.add (.val (qMul (if anti then -1 else 1) (qMul (10 ^ 9) q))) rAnti

/-- The peak-to-region conversion as the claim words it: clamped on both
sides to the spectrum bounds (the code only clamps from above). -/
def claimedRegion (specLen : ℕ) (p : ℤ) (w : ℚ) : ℤ × ℤ :=
  (max 0 (min (specLen : ℤ) (truncQ (qAdd (p : ℚ) (qMul w (-4))))),
   max 0 (min (specLen : ℤ) (truncQ (qAdd (p : ℚ) (qMul w 4)))))

/-- A flat 20-pixel calibration spectrum (its median is 0). -/
def specZeros : List ℚ := List.replicate 20 0

/-- A scipy oracle that always reports six well-separated peaks of width 1,
one of them 2 pixels from the left edge. -/
def scipySix : Option ℚ → ScipyPeaks :=
  fun _ => ⟨[2, 5, 8, 11, 14, 19], [1, 1, 1, 1, 1, 1]⟩

/-- A scipy oracle that reports three peaks with the height floor and four
peaks without it - fewer than the `2 + 2*2 = 6` needed either way. -/
def scipyFew : Option ℚ → ScipyPeaks :=
  fun h => match h with
  | some _ => ⟨[3, 9, 15], [1, 1, 1]⟩
  | none => ⟨[3, 7, 11, 15], [1, 1, 1, 1]⟩

/-- An evaluation run over a `2 x 2 x 1` grid in which every model is
present, the first-point probe succeeds, and the user has already set the
abort flag when the first grid point polls it. -/
def abortEnv : EvaluateEnv where
  extractionPresent := true
  calibrationPresent := true
  peakSelectionPresent := true
  evaluationPresent := true
  nrImageKeys := 4
  firstSpectraPresent := true
  abortAt := fun _ => true
  extractOk := fun _ => true
  frequenciesOk := fun _ => true

/-- Is the event a grid-point fit? -/
def EvalEvent.isFitPoint : EvalEvent → Bool
  | .fitPoint _ => true
  | _ => false

/-- A result tensor over a single grid point and frame with one Brillouin
region holding two peak fits at positions 10 and 20, and two Rayleigh
regions at positions 5 and 30 (the worked example of the spec). -/
def evmExample : ResultsArrays where
  dimX := 1
  dimY := 1
  dimZ := 1
  nrImages := 1
  nrBrillouinRegions := 1
  nrPeakSlots := 2
  nrRayleighRegions := 2
  brillouin_peak_position_f := fun i => if i.peak = 0 then .val 10 else .val 20
  brillouin_peak_fwhm_f := fun _ => .nan
  brillouin_peak_intensity := fun _ => .nan
  brillouin_peak_offset := fun _ => .nan
  rayleigh_peak_position_f := fun i => if i.region = 0 then .val 5 else .val 30
  rayleigh_peak_fwhm_f := fun _ => .nan
  rayleigh_peak_intensity := fun _ => .nan
  rayleigh_peak_offset := fun _ => .nan
  rayleigh_shift := fun _ => .nan
  brillouin_shift_f := fun _ => .nan
  timeArr := fun _ => .nan
  intensityArr := fun _ => .nan

/-- A result tensor before initialization: every array empty (size 0). -/
def evmEmpty : ResultsArrays where
  dimX := 0
  dimY := 0
  dimZ := 0
  nrImages := 0
  nrBrillouinRegions := 0
  nrPeakSlots := 0
  nrRayleighRegions := 0
  brillouin_peak_position_f := fun _ => .nan
  brillouin_peak_fwhm_f := fun _ => .nan
  brillouin_peak_intensity := fun _ => .nan
  brillouin_peak_offset := fun _ => .nan
  rayleigh_peak_position_f := fun _ => .nan
  rayleigh_peak_fwhm_f := fun _ => .nan
  rayleigh_peak_intensity := fun _ => .nan
  rayleigh_peak_offset := fun _ => .nan
  rayleigh_shift := fun _ => .nan
  brillouin_shift_f := fun _ => .nan
  timeArr := fun _ => .nan
  intensityArr := fun _ => .nan

/-!
Helper lemmas: the order on non-NaN `PyFloat` values, the specification of
`nanmin` and `pySort2`, record-update bookkeeping, and `Option.mapM`
inversion.
-/

theorem list_getD_mem {α : Type} :
    ∀ (l : List α) (n : ℕ) (d : α), n < l.length → l.getD n d ∈ l
  | a :: l, 0, _, _ => List.mem_cons_self a l
  | a :: l, n + 1, d, h =>
    List.mem_cons_of_mem a (list_getD_mem l n d (by simpa using h))

theorem qAdd_eq (a b : ℚ) : qAdd a b = a + b := by
  unfold qAdd
  rw [Rat.divInt_eq_div]
  push_cast
  conv_rhs => rw [← Rat.num_div_den a, ← Rat.num_div_den b]
  field_simp

theorem qSub_eq (a b : ℚ) : qSub a b = a - b := by
  unfold qSub
  rw [Rat.divInt_eq_div]
  push_cast
  conv_rhs => rw [← Rat.num_div_den a, ← Rat.num_div_den b]
  field_simp
  ring

theorem qMul_eq (a b : ℚ) : qMul a b = a * b := by
  unfold qMul
  rw [Rat.divInt_eq_div]
  push_cast
  conv_rhs => rw [← Rat.num_div_den a, ← Rat.num_div_den b]
  field_simp

theorem qDiv_eq (a b : ℚ) : qDiv a b = a / b := by
  unfold qDiv
  by_cases hb : b = 0
  · subst hb
    simp
  · rw [Rat.divInt_eq_div]
    push_cast
    conv_rhs => rw [← Rat.num_div_den a, ← Rat.num_div_den b]
    have hbn : ((b.num : ℚ)) ≠ 0 := by
      exact_mod_cast Rat.num_ne_zero.mpr hb
    field_simp

theorem pyfloat_isNaN_eq {x : PyFloat} (h : x.isNaN = true) : x = .nan := by
  cases x <;> simp [PyFloat.isNaN] at h ⊢

theorem pyfloat_le_refl (x : PyFloat) (hx : x.isNaN = false) :
    PyFloat.le x x = true := by
  cases x <;> simp_all [PyFloat.le, PyFloat.isNaN]

theorem pyfloat_le_of_lt (x y : PyFloat) (h : PyFloat.lt x y = true) :
    PyFloat.le x y = true := by
  cases x <;> cases y <;> simp_all [PyFloat.lt, PyFloat.le] <;> linarith

theorem pyfloat_le_of_not_lt (x y : PyFloat) (hx : x.isNaN = false)
    (hy : y.isNaN = false) (h : PyFloat.lt y x = false) :
    PyFloat.le x y = true := by
  cases x <;> cases y <;>
    simp_all [PyFloat.lt, PyFloat.le, PyFloat.isNaN] <;> linarith

theorem pyfloat_lt_le_trans (a b c : PyFloat) (h1 : PyFloat.lt a b = true)
    (h2 : PyFloat.le b c = true) : PyFloat.le a c = true := by
  cases a <;> cases b <;> cases c <;>
    simp_all [PyFloat.lt, PyFloat.le] <;> linarith

theorem pyfloat_nanmin_isNaN (l : List PyFloat) :
    (PyFloat.nanmin l).isNaN = true ↔ ∀ x ∈ l, x.isNaN = true := by
  induction l with
  | nil => simp [PyFloat.nanmin, PyFloat.isNaN]
  | cons x xs ih =>
    simp only [PyFloat.nanmin]
    by_cases hx : x.isNaN = true
    · simp [hx, ih]
    · by_cases hm : (PyFloat.nanmin xs).isNaN = true
      · simp [hx, hm]
      · simp only [hx, hm]
        simp only [Bool.false_eq_true, if_false]
        split <;> simp_all

theorem pyfloat_nanmin_mem (l : List PyFloat)
    (h : (PyFloat.nanmin l).isNaN = false) : PyFloat.nanmin l ∈ l := by
  induction l with
  | nil => simp [PyFloat.nanmin, PyFloat.isNaN] at h
  | cons x xs ih =>
    simp only [PyFloat.nanmin] at h ⊢
    by_cases hx : x.isNaN = true
    · simp only [hx, if_true] at h ⊢
      exact List.mem_cons_of_mem x (ih h)
    · simp only [hx, Bool.false_eq_true, if_false] at h ⊢
      by_cases hm : (PyFloat.nanmin xs).isNaN = true
      · simp [hm]
      · simp only [hm, Bool.false_eq_true, if_false] at h ⊢
        split
        · exact List.mem_cons_self x xs
        · exact List.mem_cons_of_mem x (ih (by simpa using hm))

theorem pyfloat_nanmin_le (l : List PyFloat) (y : PyFloat) (hy : y ∈ l)
    (hynan : y.isNaN = false) :
    PyFloat.le (PyFloat.nanmin l) y = true := by
  induction l with
  | nil => simp at hy
  | cons x xs ih =>
    simp only [PyFloat.nanmin]
    rcases List.mem_cons.mp hy with hyx | hyxs
    · subst hyx
      by_cases hx : y.isNaN = true
      · rw [hx] at hynan; exact absurd hynan (by simp)
      · simp only [hx, Bool.false_eq_true, if_false]
        by_cases hm : (PyFloat.nanmin xs).isNaN = true
        · simp only [hm, if_true]
          exact pyfloat_le_refl y (by simpa using hx)
        · simp only [hm, Bool.false_eq_true, if_false]
          split
          · exact pyfloat_le_refl y (by simpa using hx)
          · rename_i hlt
            exact pyfloat_le_of_not_lt _ y (by simpa using hm)
              (by simpa using hx) (by simpa using hlt)
    · by_cases hx : x.isNaN = true
      · simp only [hx, if_true]
        exact ih hyxs
      · simp only [hx, Bool.false_eq_true, if_false]
        by_cases hm : (PyFloat.nanmin xs).isNaN = true
        · exact absurd hynan
            (by simp [(pyfloat_nanmin_isNaN xs).mp hm y hyxs])
        · simp only [hm, Bool.false_eq_true, if_false]
          split
          · rename_i hlt
            exact pyfloat_lt_le_trans _ _ _ hlt (ih hyxs)
          · exact ih hyxs

theorem pyfloat_pySort2_sorted (p : PyFloat × PyFloat)
    (h1 : p.1.isNaN = false) (h2 : p.2.isNaN = false) :
    PyFloat.le (PyFloat.pySort2 p).1 (PyFloat.pySort2 p).2 = true := by
  unfold PyFloat.pySort2
  by_cases h : PyFloat.lt p.2 p.1 = true
  · simp only [h, if_true]
    exact pyfloat_le_of_lt _ _ h
  · simp only [h, Bool.false_eq_true, if_false]
    exact pyfloat_le_of_not_lt p.1 p.2 h1 h2 (by simpa using h)

theorem translateLimit_not_nan (region : ℚ × ℚ) (r : ℚ) (anti : Bool)
    (t : BoundToken) :
    (translateLimit region (.val r) anti t).isNaN = false := by
  cases t <;> cases anti <;>
    simp [translateLimit, PyFloat.add, PyFloat.isNaN]

theorem sizeB_set_shift (evm : ResultsArrays) (f : Idx6 → PyFloat) :
    sizeB { evm with brillouin_shift_f := f } = sizeB evm := rfl

theorem sizeR_set_shift (evm : ResultsArrays) (f : Idx6 → PyFloat) :
    sizeR { evm with brillouin_shift_f := f } = sizeR evm := rfl

theorem derivedShiftArray_set_shift (evm : ResultsArrays)
    (f : Idx6 → PyFloat) :
    derivedShiftArray { evm with brillouin_shift_f := f } =
      derivedShiftArray evm := rfl

theorem set_shift_set_shift (evm : ResultsArrays) (f g : Idx6 → PyFloat) :
    ({ { evm with brillouin_shift_f := f } with brillouin_shift_f := g }) =
      { evm with brillouin_shift_f := g } := rfl

theorem pyGet_mem {α : Type} (l : List α) (i : ℤ) (a : α)
    (h : pyGet l i = some a) : a ∈ l := by
  unfold pyGet at h
  split at h
  · exact List.get?_mem h
  · split at h
    · exact List.get?_mem h
    · exact absurd h (by simp)

theorem mapM_option_spec {α β : Type} (f : α → Option β) (l : List α)
    (res : List β) (h : l.mapM f = some res) :
    res.length = l.length ∧ ∀ b2 ∈ res, ∃ a ∈ l, f a = some b2 := by
  induction l generalizing res with
  | nil =>
    simp only [List.mapM_nil, pure, Option.some.injEq] at h
    subst h
    simp
  | cons a l ih =>
    rw [List.mapM_cons] at h
    cases hfa : f a with
    | none => rw [hfa] at h; simp at h
    | some v =>
      rw [hfa] at h
      cases hml : l.mapM f with
      | none => rw [hml] at h; simp at h
      | some vs =>
        rw [hml] at h
        simp only [Option.bind_eq_bind, Option.some_bind, pure,
          Option.some.injEq] at h
        subst h
        obtain ⟨hlen, hmem⟩ := ih vs hml
        refine ⟨by simp [hlen], ?_⟩
        intro b2 hb2
        rcases List.mem_cons.mp hb2 with hb | hb
        · exact ⟨a, List.mem_cons_self a l, by rw [hfa, hb]⟩
        · obtain ⟨a2, ha2, hfa2⟩ := hmem b2 hb
          exact ⟨a2, List.mem_cons_of_mem a ha2, hfa2⟩

theorem p2rSpec (sp : ScipyPeaks) (len : ℕ) (i : ℤ) (v : ℤ × ℤ)
    (h : peakToRegionAt sp len i = some v) :
    ∃ p w, p ∈ sp.peaks ∧ w ∈ sp.widths ∧ v = peakToRegion len p w := by
  unfold peakToRegionAt at h
  cases hp : pyGet sp.peaks i with
  | none => rw [hp] at h; simp at h
  | some p =>
    rw [hp] at h
    cases hw : pyGet sp.widths i with
    | none => rw [hw] at h; simp at h
    | some w =>
      rw [hw] at h
      simp only [Option.some_bind, Option.bind_eq_bind, pure,
        Option.some.injEq] at h
      exact ⟨p, w, pyGet_mem _ _ _ hp, pyGet_mem _ _ _ hw, h.symm⟩

theorem translateBound_sorted (region : ℚ × ℚ) (r0 r1 : ℚ)
    (bound : BoundToken × BoundToken) :
    PyFloat.le (translateBound region (.val r0) (.val r1) bound).1
      (translateBound region (.val r0) (.val r1) bound).2 = true := by
  unfold translateBound
  cases hb : boundPolarity region (.val r0) (.val r1) bound
  · simp only [hb, Bool.false_eq_true, if_false]
    exact pyfloat_pySort2_sorted _ (translateLimit_not_nan region r0 false _)
      (translateLimit_not_nan region r0 false _)
  · simp only [hb, if_true]
    exact pyfloat_pySort2_sorted _ (translateLimit_not_nan region r1 true _)
      (translateLimit_not_nan region r1 true _)

/-!
Claim theorems.
-/

/-- C7: for every 3-element resolution `(r0, r1, r2)` and all in-range
indices `0 ≤ x < r0`, `0 ≤ y < r1`, `0 ≤ z < r2`, `get_key_from_indices`
returns the decimal string of `z*(r0*r1) + y*r0 + x`, and
`get_indices_from_key` applied to that key returns exactly `(x, y, z)`. -/
theorem get_key_get_indices_roundtrip (r0 r1 r2 x y z : ℤ)
    (hx0 : 0 ≤ x) (hx : x < r0) (hy0 : 0 ≤ y) (hy : y < r1)
    (hz0 : 0 ≤ z) (hz : z < r2) :
    get_key_from_indices [r0, r1, r2] x y z =
      .ok (toString (z * (r0 * r1) + y * r0 + x)) ∧
    get_indices_from_key [r0, r1, r2] (z * (r0 * r1) + y * r0 + x) =
      .ok (x, y, z) := by
  have hr0 : 0 < r0 := lt_of_le_of_lt hx0 hx
  have hr1 : 0 < r1 := lt_of_le_of_lt hy0 hy
  have hr01 : 0 < r0 * r1 := mul_pos hr0 hr1
  have hsmall0 : 0 ≤ y * r0 + x :=
    add_nonneg (mul_nonneg hy0 (le_of_lt hr0)) hx0
  have hsmall : y * r0 + x < r0 * r1 := by
    nlinarith [mul_le_mul_of_nonneg_right
      (show y ≤ r1 - 1 by omega) (le_of_lt hr0)]
  constructor
  · simp [get_key_from_indices, not_le.mpr hx, not_le.mpr hy, not_le.mpr hz]
  · have hz' : Int.fdiv (z * (r0 * r1) + y * r0 + x) (r0 * r1) = z := by
      rw [Int.fdiv_eq_ediv _ (le_of_lt hr01)]
      have e : z * (r0 * r1) + y * r0 + x = y * r0 + x + z * (r0 * r1) := by
        ring
      rw [e, Int.add_mul_ediv_right _ _ (ne_of_gt hr01),
        Int.ediv_eq_zero_of_lt hsmall0 hsmall, zero_add]
    have hy' : Int.fdiv (z * (r0 * r1) + y * r0 + x - z * (r0 * r1)) r0
        = y := by
      have e : z * (r0 * r1) + y * r0 + x - z * (r0 * r1) = x + y * r0 := by
        ring
      rw [e, Int.fdiv_eq_ediv _ (le_of_lt hr0),
        Int.add_mul_ediv_right _ _ (ne_of_gt hr0),
        Int.ediv_eq_zero_of_lt hx0 hx, zero_add]
    have hx' : Int.fmod (Int.fmod (z * (r0 * r1) + y * r0 + x) (r0 * r1)) r0
        = x := by
      rw [Int.fmod_eq_emod _ (le_of_lt hr01)]
      have e : z * (r0 * r1) + y * r0 + x = y * r0 + x + z * (r0 * r1) := by
        ring
      rw [e, Int.add_mul_emod_self, Int.emod_eq_of_lt hsmall0 hsmall]
      rw [Int.fmod_eq_emod _ (le_of_lt hr0)]
      have e2 : y * r0 + x = x + y * r0 := by ring
      rw [e2, Int.add_mul_emod_self, Int.emod_eq_of_lt hx0 hx]
    simp only [get_indices_from_key, List.getD_cons_zero,
      List.getD_cons_succ, hz', hy', hx']
    simp [not_le.mpr hx, not_le.mpr hy, not_le.mpr hz]

/-- C7 witness: the round-trip at resolution `(3, 3, 3)` and indices
`(1, 2, 1)`, whose key is `16`. -/
theorem get_key_get_indices_roundtrip_witness :
    get_key_from_indices [3, 3, 3] 1 2 1 = .ok "16" ∧
    get_indices_from_key [3, 3, 3] 16 = .ok (1, 2, 1) := by
  have h := get_key_get_indices_roundtrip 3 3 3 1 2 1 (by decide) (by decide)
    (by decide) (by decide) (by decide) (by decide)
  have e : (1 : ℤ) * (3 * 3) + 2 * 3 + 1 = 16 := by decide
  rw [e] at h
  exact h

/-- C10: `get_key_from_indices` rejects exactly the inputs with an index
`≥` its axis bound, so a negative index passes: with resolution `(3, 3, 3)`
and indices `(-1, 0, 0)` it returns the key `"-1"`, and
`get_indices_from_key` maps that key to `(2, 2, -1)`, a different triple -
the round-trip fails for negative indices. -/
theorem get_key_negative_index_accepted :
    (∀ r0 r1 r2 x y z : ℤ,
      (∃ e, get_key_from_indices [r0, r1, r2] x y z = .error e) ↔
        (r0 ≤ x ∨ r1 ≤ y ∨ r2 ≤ z)) ∧
    get_key_from_indices [3, 3, 3] (-1) 0 0 = .ok "-1" ∧
    get_indices_from_key [3, 3, 3] (-1) = .ok (2, 2, -1) ∧
    ((2 : ℤ), (2 : ℤ), (-1 : ℤ)) ≠ ((-1 : ℤ), (0 : ℤ), (0 : ℤ)) := by
  refine ⟨?_, rfl, rfl, by decide⟩
  intro r0 r1 r2 x y z
  constructor
  · rintro ⟨e, he⟩
    by_contra hcon
    push_neg at hcon
    obtain ⟨h1, h2, h3⟩ := hcon
    simp [get_key_from_indices, not_le.mpr h1, not_le.mpr h2,
      not_le.mpr h3] at he
  · intro hcon
    by_cases h1 : r0 ≤ x
    · exact ⟨"x index out of range", by simp [get_key_from_indices, h1]⟩
    · by_cases h2 : r1 ≤ y
      · exact ⟨"y index out of range",
          by simp [get_key_from_indices, h1, h2]⟩
      · have h3 : r2 ≤ z := by tauto
        exact ⟨"z index out of range",
          by simp [get_key_from_indices, h1, h2, h3]⟩

/-- C10 witness: at resolution `(3, 3, 3)` the translator rejects `x = 5`
(an index at or above its bound). -/
theorem get_key_negative_index_accepted_witness :
    ∃ e, get_key_from_indices [3, 3, 3] 5 0 0 = .error e :=
  (get_key_negative_index_accepted.1 3 3 3 5 0 0).mpr (Or.inl (by decide))

/-- C1 counterexample: in a pure Stokes region `(0, 5)` with Rayleigh
references `10` and `20`, the numeric token `-3` GHz translates to
`1 * 1e9 * abs(-3) + 10 = 3000000010` (the code takes `abs(float(limit))`),
not to `polarity * value * 1e9 + reference = -2999999990` as the claim
words it. -/
theorem create_bounds_numeric_token_counterexample :
    boundPolarity (0, 5) (.val 10) (.val 20) (.num (-3), .num (-3)) =
      false ∧
    translateBound (0, 5) (.val 10) (.val 20) (.num (-3), .num (-3)) =
      (.val 3000000010, .val 3000000010) ∧
    claimedNumericLimit false (-3) (.val 10) = .val (-2999999990) ∧
    translateLimit (0, 5) (.val 10) false (.num (-3)) ≠
      claimedNumericLimit false (-3) (.val 10) := by
  decide

/-- C1 (amended): for every Brillouin region and frame with two finite
Rayleigh references, a pure Stokes region (both edges below the midpoint of
the references) classifies as Stokes and a pure anti-Stokes region (both
edges above it) as anti-Stokes; `"min"` then resolves to the region's lower
edge for Stokes and to its upper edge for anti-Stokes (`"max"` the
opposite), `"Inf"`/`"-Inf"` resolve to signed infinity with the sign
flipped for anti-Stokes, a numeric GHz token resolves to
`polarity * 1e9 * abs(value) + matching reference`, and every translated
`(lower, upper)` pair is sorted so that `lower ≤ upper`. -/
theorem create_bounds_token_translation (a b r0 r1 q : ℚ)
    (bs : List (BoundToken × BoundToken)) (anti : Bool)
    (hpure : if anti then (r0 + r1) / 2 < a ∧ (r0 + r1) / 2 < b
      else a < (r0 + r1) / 2 ∧ b < (r0 + r1) / 2) :
    (∀ bound, boundPolarity (a, b) (.val r0) (.val r1) bound = anti) ∧
    translateLimit (a, b) (if anti then .val r1 else .val r0) anti .minTok =
      .val (if anti then b else a) ∧
    translateLimit (a, b) (if anti then .val r1 else .val r0) anti .maxTok =
      .val (if anti then a else b) ∧
    translateLimit (a, b) (if anti then .val r1 else .val r0) anti .infTok =
      (if anti then .ninf else .inf) ∧
    translateLimit (a, b) (if anti then .val r1 else .val r0) anti
        .ninfTok = (if anti then .inf else .ninf) ∧
    translateLimit (a, b) (if anti then .val r1 else .val r0) anti
        (.num q) =
      .val ((if anti then -1 else 1) * (10 ^ 9 * |q|) +
        (if anti then r1 else r0)) ∧
    ∀ p ∈ createBoundsFrame bs (a, b) (.val r0) (.val r1),
      PyFloat.le p.1 p.2 = true := by
  have hmean0 : PyFloat.nanmean [.val r0, .val r1] =
      .val (qDiv (qAdd r0 (qAdd r1 0)) ((2 : ℕ) : ℚ)) := rfl
  have hmean : PyFloat.nanmean [.val r0, .val r1] = .val ((r0 + r1) / 2) := by
    rw [hmean0, qDiv_eq, qAdd_eq, qAdd_eq]
    norm_num
  refine ⟨?_, ?_, ?_, ?_, ?_, ?_, ?_⟩
  · intro bound
    unfold boundPolarity
    rw [hmean]
    cases anti with
    | false =>
      obtain ⟨ha, hb⟩ := (by simpa using hpure :
        a < (r0 + r1) / 2 ∧ b < (r0 + r1) / 2)
      have t0 : PyFloat.le (.val ((r0 + r1) / 2)) (.val a) = false := by
        simp [PyFloat.le]; linarith
      have t1 : PyFloat.le (.val ((r0 + r1) / 2)) (.val b) = false := by
        simp [PyFloat.le]; linarith
      have t2 : PyFloat.lt (.val ((r0 + r1) / 2))
          (.val (qDiv (qAdd a b) 2)) = false := by
        rw [qDiv_eq, qAdd_eq]
        simp [PyFloat.lt]; linarith
      simp [t0, t1, t2]
    | true =>
      obtain ⟨ha, hb⟩ := (by simpa using hpure :
        (r0 + r1) / 2 < a ∧ (r0 + r1) / 2 < b)
      have t0 : PyFloat.le (.val ((r0 + r1) / 2)) (.val a) = true := by
        simp [PyFloat.le]; linarith
      have t1 : PyFloat.le (.val ((r0 + r1) / 2)) (.val b) = true := by
        simp [PyFloat.le]; linarith
      have t2 : PyFloat.lt (.val ((r0 + r1) / 2))
          (.val (qDiv (qAdd a b) 2)) = true := by
        rw [qDiv_eq, qAdd_eq]
        simp [PyFloat.lt]; linarith
      simp [t0, t1, t2]
  · cases anti <;> simp [translateLimit]
  · cases anti <;> simp [translateLimit]
  · cases anti <;> simp [translateLimit]
  · cases anti <;> simp [translateLimit]
  · cases anti <;> simp [translateLimit, PyFloat.add, qAdd_eq, qMul_eq]
  · intro p hp
    obtain ⟨bound, hbound, rfl⟩ := List.mem_map.mp hp
    exact translateBound_sorted (a, b) r0 r1 bound

/-- C1 witness: the amended theorem instantiated at the pure Stokes region
`(0, 5)` with references `10` and `20` and numeric value `3`. -/
theorem create_bounds_token_translation_witness :
    boundPolarity (0, 5) (.val 10) (.val 20) (.minTok, .maxTok) = false ∧
    translateLimit (0, 5) (.val 10) false .minTok = .val 0 ∧
    translateLimit (0, 5) (.val 10) false (.num 3) = .val 3000000010 := by
  have h := create_bounds_token_translation 0 5 10 20 3 [(.minTok, .maxTok)]
    false (by norm_num)
  refine ⟨h.1 (.minTok, .maxTok), ?_, ?_⟩
  · have := h.2.1
    simpa using this
  · have := h.2.2.2.2.2.1
    simp only [if_false, Bool.false_eq_true] at this
    rw [this]
    norm_num

/-- C4: with multi-peak mode on and fewer than two Rayleigh rows,
`create_bounds` yields `None`; but if a FWHM bounds setting exists at the
same time, the dispatch chain reaches `zip(..., bounds_w0, bounds_fwhm)`
with `bounds_w0 = None` and raises `TypeError` instead of degrading - the
claimed "never raises" fails here. -/
theorem multi_peak_missing_rayleigh_raises :
    create_bounds (some [(.num 3, .num 7)]) [(0, 5)] [[.val 10]] = none ∧
    create_bounds_fwhm (some [(.minTok, .maxTok)]) [(0, 5)] [[.val 10]] =
      some [[[(.val 0, .inf)]]] ∧
    multiPeakBoundsStep (some [(.num 3, .num 7)])
        (some [(.minTok, .maxTok)]) [(0, 5)] [[.val 10]] =
      .error "TypeError: zip argument of type NoneType is not iterable" :=
  ⟨rfl, rfl, rfl⟩

/-- C3: on the `2 x 2 x 1` run whose abort flag is already set at the first
poll, `evaluate` runs the derived pass, reports `-1` and returns - the
trace contains `poolCreate` but neither `poolClose` nor `poolJoin`, and no
grid point is fitted: the claimed teardown on the cancellation path does
not happen. -/
theorem evaluate_abort_skips_pool_teardown :
    EvaluationController.evaluate abortEnv =
      [.maxCountSet 4, .poolCreate, .countInc, .derivedPass,
        .maxCountSet (-1)] ∧
    EvalEvent.poolCreate ∈ EvaluationController.evaluate abortEnv ∧
    EvalEvent.poolClose ∉ EvaluationController.evaluate abortEnv ∧
    EvalEvent.poolJoin ∉ EvaluationController.evaluate abortEnv ∧
    EvalEvent.derivedPass ∈ EvaluationController.evaluate abortEnv ∧
    (EvaluationController.evaluate abortEnv).all
      (fun e => !e.isFitPoint) = true := by
  decide

/-- C5 counterexample: on a flat 20-pixel spectrum with detected peaks
`[2, 5, 8, 11, 14, 19]` of width 1 (`samples = 2`), the stored Rayleigh
region for the peak at pixel 2 is `(-2, 6)` - its lower edge is negative,
because `peak_to_region` only clamps values exceeding `len(spectrum)`; the
claimed both-sides clamp would give `(0, 6)`. -/
theorem find_peaks_region_clamp_counterexample :
    CalibrationController.find_peaks specZeros scipySix 2 15 =
      .wrote [(1, 12), (7, 18)] [(-2, 6), (15, 20)] ∧
    peakToRegion 20 2 1 = (-2, 6) ∧
    claimedRegion 20 2 1 = (0, 6) ∧
    peakToRegion 20 2 1 ≠ claimedRegion 20 2 1 := by
  decide

/-- C5 (amended): whenever the detector succeeds (`wrote` outcome) with
`num_brillouin_samples > 1`, it stores exactly two merged Brillouin regions
and exactly two Rayleigh regions; every stored Rayleigh region is
`peak_to_region` of a detected peak and width (truncated to int and clamped
from above only), and each merged Brillouin region takes its lower edge
from one converted peak region and its upper edge from another. -/
theorem find_peaks_regions_shape (spectrum : List ℚ)
    (scipy : Option ℚ → ScipyPeaks) (s : ℕ) (minH : ℚ) (hs : 1 < s)
    (b r : List (ℤ × ℤ))
    (h : CalibrationController.find_peaks spectrum scipy s minH =
      .wrote b r) :
    b.length = 2 ∧ r.length = 2 ∧
    (∀ reg ∈ r, ∃ (p : ℤ) (w : ℚ),
      p ∈ (selectAttempt spectrum scipy s minH).peaks ∧
      w ∈ (selectAttempt spectrum scipy s minH).widths ∧
      reg = peakToRegion spectrum.length p w) ∧
    (∀ reg ∈ b, ∃ (p1 p2 : ℤ) (w1 w2 : ℚ),
      p1 ∈ (selectAttempt spectrum scipy s minH).peaks ∧
      p2 ∈ (selectAttempt spectrum scipy s minH).peaks ∧
      reg.1 = (peakToRegion spectrum.length p1 w1).1 ∧
      reg.2 = (peakToRegion spectrum.length p2 w2).2) := by
  simp only [CalibrationController.find_peaks] at h
  split at h
  · simp at h
  · simp only [buildRegions] at h
    split at h
    case _ rbs rrs heqB heqR =>
      rw [if_pos hs] at h
      simp only [RegionsOutcome.wrote.injEq] at h
      obtain ⟨hb, hr⟩ := h
      obtain ⟨hlenB, hmemB⟩ := mapM_option_spec _ _ _ heqB
      obtain ⟨hlenR, hmemR⟩ := mapM_option_spec _ _ _ heqR
      have hlenB2 : rbs.length = 2 * s := by
        rw [hlenB]
        simp only [List.length_map, List.length_range]
      have hgetB : ∀ n : ℕ, n < 2 * s →
          ∃ p w, p ∈ (selectAttempt spectrum scipy s minH).peaks ∧
            w ∈ (selectAttempt spectrum scipy s minH).widths ∧
            rbs.getD n (0, 0) = peakToRegion spectrum.length p w := by
        intro n hn
        have hmem : rbs.getD n (0, 0) ∈ rbs :=
          list_getD_mem rbs n (0, 0) (by omega)
        obtain ⟨idx, hidx, hfidx⟩ := hmemB _ hmem
        exact p2rSpec _ _ _ _ hfidx
      refine ⟨?_, ?_, ?_, ?_⟩
      · rw [← hb]
        rfl
      · rw [← hr]
        simpa using hlenR
      · intro reg hreg
        rw [← hr] at hreg
        obtain ⟨idx, hidx, hfidx⟩ := hmemR _ hreg
        obtain ⟨p, w, hp, hw, heq⟩ := p2rSpec _ _ _ _ hfidx
        exact ⟨p, w, hp, hw, heq⟩
      · intro reg hreg
        rw [← hb] at hreg
        rcases List.mem_cons.mp hreg with h1 | h1
        · obtain ⟨p1, w1, hp1, hw1, he1⟩ := hgetB 0 (by omega)
          obtain ⟨p2, w2, hp2, hw2, he2⟩ := hgetB (s - 1) (by omega)
          exact ⟨p1, p2, w1, w2, hp1, hp2,
            by rw [h1, he1], by rw [h1, he2]⟩
        · have h2 : reg = ((rbs.getD s (0, 0)).1,
              (rbs.getD (2 * s - 1) (0, 0)).2) := by simpa using h1
          obtain ⟨p1, w1, hp1, hw1, he1⟩ := hgetB s (by omega)
          obtain ⟨p2, w2, hp2, hw2, he2⟩ := hgetB (2 * s - 1) (by omega)
          exact ⟨p1, p2, w1, w2, hp1, hp2,
            by rw [h2, he1], by rw [h2, he2]⟩
    · simp at h

/-- C5 witness: the amended theorem applied to the flat-spectrum run of the
counterexample, whose stored region lists have length two each. -/
theorem find_peaks_regions_shape_witness :
    ([((1 : ℤ), (12 : ℤ)), (7, 18)]).length = 2 ∧
    ([((-2 : ℤ), (6 : ℤ)), (15, 20)]).length = 2 := by
  have h := find_peaks_regions_shape specZeros scipySix 2 15 (by decide)
    [(1, 12), (7, 18)] [(-2, 6), (15, 20)]
    (by decide)
  exact ⟨h.1, h.2.1⟩

/-- C6: the detector first asks scipy for peaks at height
`min_height + median(spectrum)`; when fewer than `2 + 2*samples` come back
it retries exactly once with no height floor, and when the retry is still
short it gives up for this calibration key writing no regions; a
sufficiently long candidate list proceeds to region building. -/
theorem find_peaks_retry_then_give_up (spectrum : List ℚ)
    (scipy : Option ℚ → ScipyPeaks) (s : ℕ) (minH : ℚ) :
    ((scipy (some (minH + nanmedian spectrum))).peaks.length ≥ 2 + 2 * s →
      selectAttempt spectrum scipy s minH =
        scipy (some (minH + nanmedian spectrum))) ∧
    ((scipy (some (minH + nanmedian spectrum))).peaks.length < 2 + 2 * s →
      selectAttempt spectrum scipy s minH = scipy none) ∧
    ((scipy (some (minH + nanmedian spectrum))).peaks.length < 2 + 2 * s →
      (scipy none).peaks.length < 2 + 2 * s →
      CalibrationController.find_peaks spectrum scipy s minH = .noWrite) ∧
    ((selectAttempt spectrum scipy s minH).peaks.length ≥ 2 + 2 * s →
      CalibrationController.find_peaks spectrum scipy s minH =
        buildRegions spectrum (nanmedian spectrum)
          (selectAttempt spectrum scipy s minH) s) := by
  refine ⟨?_, ?_, ?_, ?_⟩
  · intro hge
    simp only [selectAttempt, qAdd_eq]
    rw [if_neg (not_lt.mpr hge)]
  · intro hlt
    simp only [selectAttempt, qAdd_eq]
    rw [if_pos hlt]
  · intro h1 h2
    have hsel : selectAttempt spectrum scipy s minH = scipy none := by
      simp only [selectAttempt, qAdd_eq]
      rw [if_pos h1]
    simp only [CalibrationController.find_peaks]
    rw [hsel, if_pos h2]
  · intro hge
    simp only [CalibrationController.find_peaks]
    rw [if_neg (not_lt.mpr hge)]

/-- C6 witness: with an oracle reporting 3 peaks with the height floor and
4 without (fewer than 6 either way), `find_peaks` writes nothing. -/
theorem find_peaks_retry_then_give_up_witness :
    CalibrationController.find_peaks specZeros scipyFew 2 15 =
      .noWrite :=
  (find_peaks_retry_then_give_up specZeros scipyFew 2 15).2.2.1
    (by decide) (by decide)

/-- C2: after the derived-value pass, the Brillouin shift of every tensor
cell is the `nanmin` over the Rayleigh regions of the absolute position
differences: when every candidate distance is NaN the cell is NaN, and
whenever some candidate is a number the cell equals one of the candidate
distances and is `≤` every non-NaN candidate - the minimum distance. -/
theorem calculate_derived_values_nearest (evm : ResultsArrays) (i : Idx6)
    (hB : sizeB evm ≠ 0) (hR : sizeR evm ≠ 0) :
    ∃ out, calculate_derived_values (some evm) = some out ∧
      ((∀ ridx, ridx < evm.nrRayleighRegions →
          (brillouinShiftCandidate evm i ridx).isNaN = true) →
        out.brillouin_shift_f i = .nan) ∧
      (∀ ridx, ridx < evm.nrRayleighRegions →
        (brillouinShiftCandidate evm i ridx).isNaN = false →
          (∃ j, j < evm.nrRayleighRegions ∧
            out.brillouin_shift_f i = brillouinShiftCandidate evm i j) ∧
          PyFloat.le (out.brillouin_shift_f i)
            (brillouinShiftCandidate evm i ridx) = true) := by
  refine ⟨{ evm with brillouin_shift_f := derivedShiftArray evm }, ?_, ?_, ?_⟩
  · simp [calculate_derived_values, hB, hR]
  · intro hall
    show derivedShiftArray evm i = .nan
    apply pyfloat_isNaN_eq
    show (PyFloat.nanmin _).isNaN = true
    apply (pyfloat_nanmin_isNaN _).mpr
    intro x hx
    simp only [List.mem_map, List.mem_range] at hx
    obtain ⟨ridx, hridx, rfl⟩ := hx
    exact hall ridx hridx
  · intro ridx hr hnn
    have hmem : brillouinShiftCandidate evm i ridx ∈
        (List.range evm.nrRayleighRegions).map
          (brillouinShiftCandidate evm i) :=
      List.mem_map.mpr ⟨ridx, List.mem_range.mpr hr, rfl⟩
    have hmin_not_nan : (PyFloat.nanmin
        ((List.range evm.nrRayleighRegions).map
          (brillouinShiftCandidate evm i))).isNaN = false := by
      by_contra hcon
      have hall := (pyfloat_nanmin_isNaN _).mp (by simpa using hcon)
      rw [hall _ hmem] at hnn
      exact absurd hnn (by simp)
    constructor
    · have hm := pyfloat_nanmin_mem _ hmin_not_nan
      simp only [List.mem_map, List.mem_range] at hm
      obtain ⟨j, hj, hje⟩ := hm
      exact ⟨j, hj, hje.symm⟩
    · exact pyfloat_nanmin_le _ _ hmem hnn

/-- C2 witness: the spec's worked example - Brillouin positions `10` and
`20`, Rayleigh positions `5` and `30` at the same index - yields derived
shifts `5` and `10`. -/
theorem calculate_derived_values_nearest_witness :
    ∃ out, calculate_derived_values (some evmExample) = some out ∧
      out.brillouin_shift_f ⟨0, 0, 0, 0, 0, 0⟩ = .val 5 ∧
      out.brillouin_shift_f ⟨0, 0, 0, 0, 0, 1⟩ = .val 10 := by
  obtain ⟨out, hout, -, -⟩ :=
    calculate_derived_values_nearest evmExample ⟨0, 0, 0, 0, 0, 0⟩
      (by decide) (by decide)
  have h5 : Option.map (fun o => o.brillouin_shift_f ⟨0, 0, 0, 0, 0, 0⟩)
      (calculate_derived_values (some evmExample)) = some (.val 5) := by
    decide
  have h10 : Option.map (fun o => o.brillouin_shift_f ⟨0, 0, 0, 0, 0, 1⟩)
      (calculate_derived_values (some evmExample)) = some (.val 10) := by
    decide
  rw [hout] at h5 h10
  rw [Option.map_some'] at h5 h10
  exact ⟨out, hout, Option.some.inj h5, Option.some.inj h10⟩

/-- C8: the derived-value pass is idempotent - run twice with no
intervening writes it returns exactly the same result arrays, in
particular the same `brillouin_shift_f`, as run once. -/
theorem calculate_derived_values_idempotent (evm? : Option ResultsArrays) :
    calculate_derived_values (calculate_derived_values evm?) =
      calculate_derived_values evm? := by
  cases evm? with
  | none => rfl
  | some evm =>
    by_cases hB : sizeB evm = 0
    · simp [calculate_derived_values, hB]
    · by_cases hR : sizeR evm = 0
      · simp [calculate_derived_values, hB, hR]
      · simp [calculate_derived_values, hB, hR, sizeB_set_shift,
          sizeR_set_shift, derivedShiftArray_set_shift, set_shift_set_shift]

/-- C9: `calculate_derived_values` writes only `brillouin_shift_f`: every
other results array and every dimension is unchanged; with no evaluation
model it does nothing, and when either peak-position array has size zero
the whole results object is returned unchanged. -/
theorem calculate_derived_values_frame (evm : ResultsArrays) :
    calculate_derived_values none = none ∧
    ((sizeB evm = 0 ∨ sizeR evm = 0) →
      calculate_derived_values (some evm) = some evm) ∧
    (∃ out, calculate_derived_values (some evm) = some out ∧
      out.dimX = evm.dimX ∧ out.dimY = evm.dimY ∧ out.dimZ = evm.dimZ ∧
      out.nrImages = evm.nrImages ∧
      out.nrBrillouinRegions = evm.nrBrillouinRegions ∧
      out.nrPeakSlots = evm.nrPeakSlots ∧
      out.nrRayleighRegions = evm.nrRayleighRegions ∧
      out.brillouin_peak_position_f = evm.brillouin_peak_position_f ∧
      out.brillouin_peak_fwhm_f = evm.brillouin_peak_fwhm_f ∧
      out.brillouin_peak_intensity = evm.brillouin_peak_intensity ∧
      out.brillouin_peak_offset = evm.brillouin_peak_offset ∧
      out.rayleigh_peak_position_f = evm.rayleigh_peak_position_f ∧
      out.rayleigh_peak_fwhm_f = evm.rayleigh_peak_fwhm_f ∧
      out.rayleigh_peak_intensity = evm.rayleigh_peak_intensity ∧
      out.rayleigh_peak_offset = evm.rayleigh_peak_offset ∧
      out.rayleigh_shift = evm.rayleigh_shift ∧
      out.timeArr = evm.timeArr ∧
      out.intensityArr = evm.intensityArr) := by
  have key : ∀ out2 : ResultsArrays,
      out2 = evm ∨
        out2 = { evm with brillouin_shift_f := derivedShiftArray evm } →
      out2.dimX = evm.dimX ∧ out2.dimY = evm.dimY ∧
      out2.dimZ = evm.dimZ ∧ out2.nrImages = evm.nrImages ∧
      out2.nrBrillouinRegions = evm.nrBrillouinRegions ∧
      out2.nrPeakSlots = evm.nrPeakSlots ∧
      out2.nrRayleighRegions = evm.nrRayleighRegions ∧
      out2.brillouin_peak_position_f = evm.brillouin_peak_position_f ∧
      out2.brillouin_peak_fwhm_f = evm.brillouin_peak_fwhm_f ∧
      out2.brillouin_peak_intensity = evm.brillouin_peak_intensity ∧
      out2.brillouin_peak_offset = evm.brillouin_peak_offset ∧
      out2.rayleigh_peak_position_f = evm.rayleigh_peak_position_f ∧
      out2.rayleigh_peak_fwhm_f = evm.rayleigh_peak_fwhm_f ∧
      out2.rayleigh_peak_intensity = evm.rayleigh_peak_intensity ∧
      out2.rayleigh_peak_offset = evm.rayleigh_peak_offset ∧
      out2.rayleigh_shift = evm.rayleigh_shift ∧
      out2.timeArr = evm.timeArr ∧
      out2.intensityArr = evm.intensityArr := by
    rintro out2 (rfl | rfl) <;> refine ⟨rfl, rfl, rfl, rfl, rfl, rfl, rfl,
      rfl, rfl, rfl, rfl, rfl, rfl, rfl, rfl, rfl, rfl, rfl⟩
  refine ⟨rfl, ?_, ?_⟩
  · rintro (h | h)
    · simp [calculate_derived_values, h]
    · by_cases hB : sizeB evm = 0
      · simp [calculate_derived_values, hB]
      · simp [calculate_derived_values, hB, h]
  · by_cases hB : sizeB evm = 0
    · exact ⟨evm, by simp [calculate_derived_values, hB],
        key evm (Or.inl rfl)⟩
    · by_cases hR : sizeR evm = 0
      · exact ⟨evm, by simp [calculate_derived_values, hB, hR],
          key evm (Or.inl rfl)⟩
      · exact ⟨{ evm with brillouin_shift_f := derivedShiftArray evm },
          by simp [calculate_derived_values, hB, hR],
          key _ (Or.inr rfl)⟩

/-- C9 witness: the frame theorem at the uninitialized tensor, whose empty
arrays leave the results object untouched. -/
theorem calculate_derived_values_frame_witness :
    calculate_derived_values none = none ∧
    calculate_derived_values (some evmEmpty) = some evmEmpty :=
  ⟨(calculate_derived_values_frame evmEmpty).1,
    (calculate_derived_values_frame evmEmpty).2.1 (Or.inl (by decide))⟩

end Bmlab
